import Mathlib

/-!
Verification development for the webdnd turn-resolution pipeline and
game-state merge engine.

The definitions below are a shallow embedding of the TypeScript source:
* `calculateFinalAttributes`  — the attribute resolver (src/lib/utils).
* `applyGameStateChanges`     — the state delta applier (game session page).
* `handleUserAction`          — the turn orchestrator server action, with the
  three language-model calls, the random d20 roll and the wall clock passed
  in explicitly through an `Oracle`, and the Supabase `games` table modelled
  as a list of rows.
* `handleStartGame`           — the character-creation handler from the
  new-game view (validation guards plus the initial `GameState` document).

JavaScript objects used as string-keyed maps are modelled as functions
`String → Option _` when they are only read and written by key, and as
association lists when the source iterates over their keys.  JavaScript
truthiness on numbers and strings is modelled explicitly (`jsOrInt`,
non-empty-string tests).  Log/narrative strings reproduce the structure of
the source's concatenations; the `JSON.stringify` payloads inside them are
rendered by a simple printer since no claim depends on their exact shape.
-/

namespace WebDnd

/-- Speaker role of a dialogue entry: `"user"` (the player) or `"dm"`
(the narrator). -/
inductive Role where
  | user
  | dm
deriving DecidableEq, Repr

/-- One entry of the dialogue history (`DialogueEntry` in types.ts). -/
structure DialogueEntry where
  role : Role
  text : String
  timestamp : String
deriving DecidableEq, Repr

/-- One inventory entry (`InventoryItem` in types.ts).  Quantities are
modelled as integers. -/
structure InventoryItem where
  item : String
  quantity : Int
deriving DecidableEq, Repr

/-- One skill entry (`PlayerSkill` in types.ts); `level` and `description`
are optional fields. -/
structure PlayerSkill where
  skillName : String
  level : Option Int
  description : Option String
deriving DecidableEq, Repr

/-- A JavaScript object used as a map from attribute names to numbers. -/
abbrev AttrMap := String → Option Int

/-- A JavaScript object used as a map from story-flag names to values
(the flag values are strings in the structured-output schema). -/
abbrev FlagMap := String → Option String

/-- The persisted game-state document (`GameState` in types.ts). -/
structure GameState where
  scenarioId : String
  scenarioName : String
  baseAttributes : AttrMap
  selectedCustomizations : List (String × String)
  currentLocation : String
  playerCharacterName : Option String
  inventory : List InventoryItem
  playerSkills : List PlayerSkill
  gameProgression : FlagMap
  dialogueHistory : List DialogueEntry

/-- One customization option (`PlayerCustomizationContentItem` in types.ts).
Its `attributeBonus` object is iterated over, so it is an association list. -/
structure PlayerCustomizationContentItem where
  description : String
  attributeBonus : List (String × Int)

/-- One customization category (`PlayerCustomizationCategory` in types.ts).
Its `content` object's first key is read at initialization, so it is an
association list preserving key order. -/
structure PlayerCustomizationCategory where
  description : String
  content : List (String × PlayerCustomizationContentItem)

/-- One base skill of a scenario (`BaseSkill` in types.ts).  The source
field is named `attribute`, a keyword in Lean. -/
structure BaseSkill where
  attributeName : String
  description : String

/-- A scenario definition (`DndScenario` in types.ts); `name` is the
`"Dnd-Scenario"` display-name field. -/
structure DndScenario where
  id : String
  name : String
  attributes : List (String × String)
  baseSkills : List (String × BaseSkill)
  startingPoint : String
  playerCustomizations : List (String × PlayerCustomizationCategory)

/-- First-match lookup in an association list, the semantics of reading a
key from a JavaScript object (keys are unique in an actual object). -/
def lookupKey {α : Type} (k : String) : List (String × α) → Option α
  | [] => none
  | p :: rest => if p.1 = k then some p.2 else lookupKey k rest

/-- JavaScript `v || d` on an optional number: `undefined` and `0` are
falsy and fall back to the default. -/
def jsOrInt (v : Option Int) (d : Int) : Int :=
  match v with
  | none => d
  | some x => if x = 0 then d else x

/-! ### Attribute resolver (`calculateFinalAttributes`, src/lib/utils) -/

/-- The inner `for (const attr in bonus)` loop: add each bonus to the
accumulating attribute map, creating the entry when it is absent.  The
source operates on a spread copy of the input object; the embedding is
pure, so the input map is never mutated. -/
def applyBonus (finalAttrs : AttrMap) (bonus : List (String × Int)) : AttrMap :=
  bonus.foldl
    (fun acc p => fun a =>
      if a = p.1 then
        match acc p.1 with
        | some v => some (v + p.2)
        | none => some p.2
      else acc a)
    finalAttrs

/-- `calculateFinalAttributes(baseAttrs, customs, currentScenario)`: start
from a copy of the base attributes and, for each selected
category/option pair whose category and option both exist in the
scenario, add that option's attribute bonuses. -/
def calculateFinalAttributes (baseAttrs : AttrMap)
    (customs : List (String × String)) (currentScen : DndScenario) : AttrMap :=
  customs.foldl
    (fun finalAttrs sel =>
      match lookupKey sel.1 currentScen.playerCustomizations with
      | some category =>
        match lookupKey sel.2 category.content with
        | some opt => applyBonus finalAttrs opt.attributeBonus
        | none => finalAttrs
      | none => finalAttrs)
    baseAttrs

/-! ### Proposed deltas (`ParsedUserAction` / `DMResponseContent`) -/

/-- One item change of a proposed delta. -/
structure ItemChange where
  item : String
  quantityChange : Int
deriving DecidableEq, Repr

/-- One attribute change of a proposed delta.  The source field is named
`attribute`, a keyword in Lean. -/
structure AttributeChange where
  attributeName : String
  valueChange : Int
deriving DecidableEq, Repr

/-- The four skill-change operations. -/
inductive SkillChangeType where
  | learn
  | forget
  | improve
  | deteriorate
deriving DecidableEq, Repr

/-- One skill change of a proposed delta; `value` is optional. -/
structure SkillChange where
  skillName : String
  type : SkillChangeType
  value : Option Int
deriving DecidableEq, Repr

/-- One story-flag update of a proposed delta. -/
structure StoryFlag where
  flag : String
  value : String
deriving DecidableEq, Repr

/-- A proposed delta, the common shape of `ParsedUserAction` and
`DMResponseContent` as consumed by `applyGameStateChanges`.  A `none`
models an absent field; in particular `requiresDiceRoll = none` models a
delta without that field (the `"requiresDiceRoll" in changes` test). -/
structure Changes where
  itemChanges : Option (List ItemChange)
  attributeChanges : Option (List AttributeChange)
  skillChanges : Option (List SkillChange)
  locationUpdate : Option String
  storyFlags : Option (List StoryFlag)
  requiresDiceRoll : Option Bool
  relevantAttribute : Option String
  difficultyClass : Option Int
deriving DecidableEq, Repr

/-! ### State delta applier (`applyGameStateChanges`) -/

/-- One item change: find the first inventory entry with the exact name;
if found add the delta and remove the entry when the result is `≤ 0`;
otherwise push a new entry at the end when the delta is positive. -/
def applyItemChange (c : ItemChange) : List InventoryItem → List InventoryItem
  | [] => if 0 < c.quantityChange then [⟨c.item, c.quantityChange⟩] else []
  | entry :: rest =>
    if entry.item = c.item then
      if entry.quantity + c.quantityChange ≤ 0 then rest
      else ⟨entry.item, entry.quantity + c.quantityChange⟩ :: rest
    else entry :: applyItemChange c rest

/-- Simple rendering of an item-change list for the narrative log (the
source uses `JSON.stringify`). -/
def itemChangesText (l : List ItemChange) : String :=
  String.intercalate "; " (l.map (fun c => c.item ++ ":" ++ toString c.quantityChange))

/-- The item-changes section: new inventory and narrative part. -/
def applyItems (inv : List InventoryItem) :
    Option (List ItemChange) → List InventoryItem × String
  | some l =>
    if 0 < l.length then
      (l.foldl (fun i c => applyItemChange c i) inv,
       "\n物品变动：" ++ itemChangesText l ++ "。")
    else (inv, "")
  | none => (inv, "")

/-- One attribute change: add to the existing base attribute, or create it
with the delta as value when it did not exist (the source logs a warning
in that case but proceeds). -/
def applyAttributeChange (attrs : AttrMap) (c : AttributeChange) : AttrMap :=
  fun a =>
    if a = c.attributeName then
      match attrs c.attributeName with
      | some v => some (v + c.valueChange)
      | none => some c.valueChange
    else attrs a

/-- Simple rendering of an attribute-change list for the narrative log. -/
def attributeChangesText (l : List AttributeChange) : String :=
  String.intercalate "; " (l.map (fun c => c.attributeName ++ ":" ++ toString c.valueChange))

/-- The attribute-changes section: new base attributes and narrative part. -/
def applyAttrs (attrs : AttrMap) :
    Option (List AttributeChange) → AttrMap × String
  | some l =>
    if 0 < l.length then
      (l.foldl applyAttributeChange attrs,
       "\n属性变动：" ++ attributeChangesText l ++ "。")
    else (attrs, "")
  | none => (attrs, "")

/-- One skill change: find the first skill with the exact name.  When
found: `improve`/`deteriorate` adjust the level only when `value` is
present (`deteriorate` floors at 0), `forget` removes the entry, and any
other combination — including `learn` — leaves the list unchanged.  When
absent: `learn` pushes a new entry at the end with level `value || 1`. -/
def applySkillChange (c : SkillChange) : List PlayerSkill → List PlayerSkill
  | [] =>
    if c.type = SkillChangeType.learn then [⟨c.skillName, some (jsOrInt c.value 1), none⟩]
    else []
  | s :: rest =>
    if s.skillName = c.skillName then
      match c.type, c.value with
      | SkillChangeType.improve, some v =>
        { s with level := some (jsOrInt s.level 0 + v) } :: rest
      | SkillChangeType.deteriorate, some v =>
        { s with level := some (max 0 (jsOrInt s.level 0 - v)) } :: rest
      | SkillChangeType.forget, _ => rest
      | _, _ => s :: rest
    else s :: applySkillChange c rest

/-- Simple rendering of a skill-change list for the narrative log. -/
def skillChangesText (l : List SkillChange) : String :=
  String.intercalate "; " (l.map (fun c => c.skillName))

/-- The skill-changes section: new skill list and narrative part. -/
def applySkills (skills : List PlayerSkill) :
    Option (List SkillChange) → List PlayerSkill × String
  | some l =>
    if 0 < l.length then
      (l.foldl (fun s c => applySkillChange c s) skills,
       "\n技能变动：" ++ skillChangesText l ++ "。")
    else (skills, "")
  | none => (skills, "")

/-- The location section: `if (changes.locationUpdate)` is a JavaScript
truthiness test, so an absent field and the empty string both leave the
location unchanged; any other string overwrites it. -/
def applyLoc (loc : String) : Option String → String × String
  | some newLoc =>
    if newLoc = "" then (loc, "")
    else (newLoc, "\n地点更新：玩家现在位于 " ++ newLoc ++ "。")
  | none => (loc, "")

/-- The story-flags section: unconditional overwrite/insert per flag. -/
def applyFlags (flags : FlagMap) :
    Option (List StoryFlag) → FlagMap × String
  | some l =>
    if 0 < l.length then
      (l.foldl (fun m f => fun k => if k = f.flag then some f.value else m k) flags,
       "\n故事标志更新：" ++ String.intercalate "; " (l.map (fun f => f.flag)) ++ "。")
    else (flags, "")
  | none => (flags, "")

/-- The skill-check outcome: `roll + attrVal >= dc`, except that a roll of
exactly 1 is forced to failure and a roll of exactly 20 to success. -/
def skillCheckSuccess (roll attrVal dc : Int) : Bool :=
  if roll = 1 then false
  else if roll = 20 then true
  else decide (dc ≤ roll + attrVal)

/-- The narrative line produced by the dice-roll section. -/
def diceText (attrName : String) (dc roll attrVal : Int) : String :=
  "\n进行了 " ++ attrName ++ " 检定 (DC " ++ toString dc ++ ")。掷骰结果: "
    ++ toString roll ++ " (d20) + " ++ toString attrVal ++ " (属性加成) = "
    ++ toString (roll + attrVal) ++ "。结果："
    ++ (if skillCheckSuccess roll attrVal dc then "成功" else "失败") ++ "。"

/-- The dice-roll section.  It fires only when the delta carries the
`requiresDiceRoll` field with value `true`, a truthy (non-empty)
`relevantAttribute` and a defined `difficultyClass`; it reads the
effective attribute with default 0 and writes only to the narrative
string, never to the state. -/
def diceSection (changes : Changes) (finalAttributes : AttrMap) (roll : Int) : String :=
  match changes.requiresDiceRoll, changes.relevantAttribute, changes.difficultyClass with
  | some true, some attrName, some dc =>
    if attrName = "" then ""
    else diceText attrName dc roll (jsOrInt (finalAttributes attrName) 0)
  | _, _, _ => ""

/-- `applyGameStateChanges(gameState, changes, finalAttributes)`: merge a
proposed delta into the state and return the updated state together with
the narrative-context string.  The six sections touch pairwise disjoint
fields of the state, so the source's sequential in-place mutation is
rendered as one record update; the narrative parts are concatenated in
the source's order (items, attributes, skills, location, flags, dice).
The d20 roll drawn inside the dice section is passed in as `roll`. -/
def applyGameStateChanges (gameState : GameState) (changes : Changes)
    (finalAttributes : AttrMap) (roll : Int) : GameState × String :=
  let items := applyItems gameState.inventory changes.itemChanges
  let attrs := applyAttrs gameState.baseAttributes changes.attributeChanges
  let skills := applySkills gameState.playerSkills changes.skillChanges
  let loc := applyLoc gameState.currentLocation changes.locationUpdate
  let flags := applyFlags gameState.gameProgression changes.storyFlags
  let dice := diceSection changes finalAttributes roll
  ({ gameState with
      inventory := items.1
      baseAttributes := attrs.1
      playerSkills := skills.1
      currentLocation := loc.1
      gameProgression := flags.1 },
   items.2 ++ attrs.2 ++ skills.2 ++ loc.2 ++ flags.2 ++ dice)

/-- Folding the delta applier over a sequence of deltas (each turn applies
the intent-parsing delta and then the narrative-derived delta this way). -/
def applyDeltas (fa : AttrMap) (roll : Int) : GameState → List Changes → GameState
  | st, [] => st
  | st, c :: rest => applyDeltas fa roll (applyGameStateChanges st c fa roll).1 rest

/-! ### Specification-side characterization of the attribute resolver

Used to compare `calculateFinalAttributes` against §4.1 of the spec: the
resolved value of an attribute is its base value plus the sum of all
bonuses for it across the valid selected pairs. -/

/-- Total bonus for attribute `a` inside one attribute-bonus list. -/
def bonusAmount (a : String) : List (String × Int) → Int
  | [] => 0
  | p :: rest => (if p.1 = a then p.2 else 0) + bonusAmount a rest

/-- Whether one attribute-bonus list mentions attribute `a` at all. -/
def bonusHits (a : String) : List (String × Int) → Bool
  | [] => false
  | p :: rest => decide (p.1 = a) || bonusHits a rest

/-- The attribute-bonus list of one selected category/option pair; empty
when the category or option key is absent from the scenario. -/
def selectedBonus (scen : DndScenario) (sel : String × String) : List (String × Int) :=
  match lookupKey sel.1 scen.playerCustomizations with
  | some category =>
    match lookupKey sel.2 category.content with
    | some opt => opt.attributeBonus
    | none => []
  | none => []

/-- Total bonus for attribute `a` across all valid selected pairs. -/
def totalBonus (scen : DndScenario) (a : String) : List (String × String) → Int
  | [] => 0
  | sel :: rest => bonusAmount a (selectedBonus scen sel) + totalBonus scen a rest

/-- Whether any valid selected pair's bonus list mentions attribute `a`. -/
def bonusMentioned (scen : DndScenario) (a : String) : List (String × String) → Bool
  | [] => false
  | sel :: rest => bonusHits a (selectedBonus scen sel) || bonusMentioned scen a rest

/-! ### Turn orchestrator (`handleUserAction`) -/

/-- One row of the Supabase `games` table, as selected by the server
action (`id, user_id, scenario_id, name, state`). -/
structure GameRow where
  id : String
  user_id : String
  scenario_id : String
  name : String
  state : GameState

/-- The environment of one turn: the outcomes of the three
narration-service calls (including JSON parsing of the structured
outputs), the d20 roll, the wall-clock timestamp and whether the final
Supabase update succeeds.  `parse` is LLM call 1 (intent parsing),
`narrative` LLM call 2 (free-text narration), `extract` LLM call 3
(delta extraction from the narration). -/
structure Oracle where
  parse : Except String Changes
  narrative : Except String String
  extract : Except String Changes
  roll : Int
  now : String
  persistOk : Bool

/-- `findRow`: the `.eq("id", sessionId).single()` lookup in the `games`
table (first matching row). -/
def findRow (sessionId : String) : List GameRow → Option GameRow
  | [] => none
  | r :: rest => if r.id = sessionId then some r else findRow sessionId rest

/-- `allScenarios.find((s) => s.id === gameData.scenario_id)`. -/
def findScen (scenId : String) : List DndScenario → Option DndScenario
  | [] => none
  | s :: rest => if s.id = scenId then some s else findScen scenId rest

/-- The placeholder narrator message substituted when any of the three
narration-service calls throws. -/
def placeholderNarrative (e : String) : String :=
  "DM暂时无法回应，似乎遇到了次元裂缝。错误: " ++ e

/-- Appending the player's raw action to the dialogue history (done before
the narration calls so the action survives any later failure). -/
def afterUserAppend (st : GameState) (userAction now : String) : GameState :=
  { st with dialogueHistory := st.dialogueHistory ++ [⟨Role.user, userAction, now⟩] }

/-- The `try`/`catch` body of the turn: LLM call 1 and the first delta
application, recomputation of the effective attributes, LLM call 2, LLM
call 3 and the second delta application.  Returns the narrator text (the
generated narrative, or the placeholder when any call failed — the catch
clause overwrites `dmNarrative` even when call 2 had succeeded) together
with the state after the applications that happened before any failure
(no rollback). -/
def turnBody (scen : DndScenario) (st : GameState) (fa : AttrMap) (o : Oracle) :
    String × GameState :=
  match o.parse with
  | Except.error e => (placeholderNarrative e, st)
  | Except.ok parsedAction =>
    let st1 := (applyGameStateChanges st parsedAction fa o.roll).1
    let fa1 := calculateFinalAttributes st1.baseAttributes st1.selectedCustomizations scen
    match o.narrative with
    | Except.error e => (placeholderNarrative e, st1)
    | Except.ok content =>
      let dmNarrative := if content = "" then "DM无语了。故事继续..." else content
      match o.extract with
      | Except.error e => (placeholderNarrative e, st1)
      | Except.ok dmChanges => (dmNarrative, (applyGameStateChanges st1 dmChanges fa1 o.roll).1)

/-- The final Supabase write: `update({ state }).eq("id", sessionId)`. -/
def updateStore (store : List GameRow) (sessionId : String) (st : GameState) : List GameRow :=
  store.map (fun r => if r.id = sessionId then { r with state := st } else r)

/-- `handleUserAction(sessionId, userAction)`: the turn orchestrator.
Preconditions (authenticated caller, existing session row, ownership,
scenario in the catalog) are checked before any mutation; then the
player entry is appended, the turn body runs with all narration
failures recovered into a placeholder, the narrator entry is appended,
and the final state is persisted.  Returns the thrown error or the
updated state, together with the store after the call. -/
def handleUserAction (catalog : List DndScenario) (store : List GameRow)
    (authUser : Option String) (sessionId userAction : String) (o : Oracle) :
    Except String GameState × List GameRow :=
  match authUser with
  | none => (Except.error "Unauthorized: User not logged in or session expired.", store)
  | some uid =>
    match findRow sessionId store with
    | none => (Except.error "游戏会话不存在或无法加载。", store)
    | some row =>
      if row.user_id = uid then
        match findScen row.scenario_id catalog with
        | none => (Except.error "关联的场景模板未找到。", store)
        | some scen =>
          let fa := calculateFinalAttributes row.state.baseAttributes
            row.state.selectedCustomizations scen
          let st1 := afterUserAppend row.state userAction o.now
          let body := turnBody scen st1 fa o
          let st2 := { body.2 with
            dialogueHistory := body.2.dialogueHistory ++ [⟨Role.dm, body.1, o.now⟩] }
          if o.persistOk then (Except.ok st2, updateStore store sessionId st2)
          else (Except.error "保存游戏状态失败。", store)
      else (Except.error "Unauthorized: You do not have access to this game session.", store)

/-- A game state with its dialogue history erased, used to state that two
states agree on everything except the history. -/
def sansHistory (st : GameState) : GameState := { st with dialogueHistory := [] }

/-- The state a completed turn persists and returns: the turn body run on
the state with the player entry appended, then the narrator entry
appended. -/
def turnFinalState (row : GameRow) (scen : DndScenario) (userAction : String)
    (o : Oracle) : GameState :=
  let fa := calculateFinalAttributes row.state.baseAttributes
    row.state.selectedCustomizations scen
  let body := turnBody scen (afterUserAppend row.state userAction o.now) fa o
  { body.2 with dialogueHistory := body.2.dialogueHistory ++ [⟨Role.dm, body.1, o.now⟩] }

/-- Whether an `Except` is in the error state. -/
def exceptFailed {α : Type} : Except String α → Bool
  | Except.error _ => true
  | Except.ok _ => false

/-! ### Character creation (`handleStartGame`, new-game view) -/

/-- `BASE_ATTRIBUTE_VALUE`: the fixed starting value of every attribute. -/
def BASE_ATTRIBUTE_VALUE : Int := 5

/-- `TOTAL_BONUS_POINTS`: the points the player must fully allocate. -/
def TOTAL_BONUS_POINTS : Int := 10

/-- `MAX_STARTING_SKILLS`: the most starting skills a player may pick. -/
def MAX_STARTING_SKILLS : Nat := 2

/-- The initialization effect for attributes: every scenario attribute is
set to the fixed starting value. -/
def initialBaseAttributes (scen : DndScenario) : AttrMap :=
  scen.attributes.foldl
    (fun m p => fun a => if a = p.1 then some BASE_ATTRIBUTE_VALUE else m a)
    (fun _ => none)

/-- The initialization effect for customizations: each category defaults
to its first option key (skipped when the category has no options). -/
def initialCustomizations (scen : DndScenario) : List (String × String) :=
  scen.playerCustomizations.filterMap
    (fun p => match p.2.content with
      | [] => none
      | q :: _ => some (p.1, q.1))

/-- The remaining allocation points for a given attribute assignment: the
UI keeps `remainingPoints` equal to the bonus budget minus the points
allocated above the base value, and `handleStartGame` requires it to be
exactly 0. -/
def remainingPoints (scen : DndScenario) (alloc : AttrMap) : Int :=
  TOTAL_BONUS_POINTS -
    scen.attributes.foldl
      (fun s p => s + ((alloc p.1).getD BASE_ATTRIBUTE_VALUE - BASE_ATTRIBUTE_VALUE)) 0

/-- `gameName.trim()`: strip leading and trailing whitespace.  Written
over the character list with structural recursion so that it evaluates
by kernel reduction (the library's `String.trim` does not). -/
def trimString (s : String) : String :=
  ⟨(((s.data.dropWhile Char.isWhitespace).reverse.dropWhile Char.isWhitespace).reverse)⟩

/-- The introductory narrator text built by `handleStartGame` (the source
interpolates the full attribute/customization/skill summary; the exact
text is not load-bearing for any claim, so the embedding keeps only its
skeleton). -/
def initialDmText (scen : DndScenario) (gameName : String) : String :=
  "欢迎来到你的新冒险，" ++ gameName ++ "！你的故事将从 " ++ scen.startingPoint
    ++ " 开始。准备好开始你的旅程了吗？"

/-- `handleStartGame`: validation guards (logged-in user, non-blank name,
all points allocated, at least one starting skill) followed by the
construction of the initial `GameState` document inserted into the
`games` table.  `none` models an early return with an error message. -/
def handleStartGame (scen : DndScenario) (user : Option String)
    (baseAttributeValues : AttrMap) (selectedCustomizations : List (String × String))
    (selectedSkills : List PlayerSkill) (gameName : String) (now : String) :
    Option GameState :=
  match user with
  | none => none
  | some _ =>
    if trimString gameName = "" then none
    else if remainingPoints scen baseAttributeValues ≠ 0 then none
    else if selectedSkills.length = 0 then none
    else some
      { scenarioId := scen.id
        scenarioName := scen.name
        baseAttributes := baseAttributeValues
        selectedCustomizations := selectedCustomizations
        currentLocation := scen.startingPoint
        playerCharacterName := some (trimString gameName)
        inventory := []
        playerSkills := selectedSkills
        gameProgression := fun _ => none
        dialogueHistory := [⟨Role.dm, initialDmText scen (trimString gameName), now⟩] }

/-! ### Concrete inputs used by the scenario conjuncts and witnesses -/

/-- The scenario of spec Scenario 1: one customization category whose
selected option grants `Strength +2`. -/
def scen1ex : DndScenario :=
  { id := "s1"
    name := "Scenario One"
    attributes := [("Strength", "power"), ("Agility", "speed")]
    baseSkills := []
    startingPoint := "camp"
    playerCustomizations :=
      [("background", ⟨"Background", [("warrior", ⟨"a warrior", [("Strength", 2)]⟩)]⟩)] }

/-- Base attributes `Strength 5, Agility 5` for Scenario 1. -/
def base1ex : AttrMap :=
  fun a => if a = "Strength" then some 5 else if a = "Agility" then some 5 else none

/-- An empty attribute map. -/
def emptyAttrs : AttrMap := fun _ => none

/-- An empty story-flag map. -/
def emptyFlags : FlagMap := fun _ => none

/-- A proposed delta with every field absent. -/
def emptyChanges : Changes := ⟨none, none, none, none, none, none, none, none⟩

/-- The game state of spec Scenario 2: inventory `[(sword, 1)]`. -/
def st2ex : GameState :=
  { scenarioId := "s1"
    scenarioName := "Scenario One"
    baseAttributes := base1ex
    selectedCustomizations := []
    currentLocation := "camp"
    playerCharacterName := some "Hero"
    inventory := [⟨"sword", 1⟩]
    playerSkills := []
    gameProgression := emptyFlags
    dialogueHistory := [] }

/-- The delta of spec Scenario 2: `itemChanges: [(sword, -1)]`. -/
def delta2ex : Changes :=
  { emptyChanges with itemChanges := some [⟨"sword", -1⟩] }

/-- The game state of spec Scenario 3: no skills yet. -/
def st3ex : GameState :=
  { st2ex with inventory := [], playerSkills := [] }

/-- The delta of spec Scenario 3: `skillChanges: [(stealth, learn, 1)]`. -/
def delta3ex : Changes :=
  { emptyChanges with skillChanges := some [⟨"stealth", SkillChangeType.learn, some 1⟩] }

/-- A delta that only requests a skill check: `requiresDiceRoll: true`
with a governing attribute and a difficulty threshold. -/
def diceDelta (a : String) (dc : Int) : Changes :=
  { emptyChanges with
      requiresDiceRoll := some true
      relevantAttribute := some a
      difficultyClass := some dc }

/-- A delta whose location-update field is present but empty (falsy in
JavaScript). -/
def emptyLocDelta : Changes := { emptyChanges with locationUpdate := some "" }

/-- A delta whose location-update field is a non-empty string. -/
def forestLocDelta : Changes := { emptyChanges with locationUpdate := some "forest" }

/-- An `improve` skill change with no value field. -/
def improveNoValue : SkillChange := ⟨"stealth", SkillChangeType.improve, none⟩

/-- A concrete `games`-table row owned by user `u1`. -/
def rowTex : GameRow :=
  { id := "g1", user_id := "u1", scenario_id := "s1", name := "Hero", state := st2ex }

/-- A concrete store holding only `rowTex`. -/
def storeTex : List GameRow := [rowTex]

/-- A concrete catalog holding only `scen1ex`. -/
def catalogTex : List DndScenario := [scen1ex]

/-- An oracle whose narrative call (LLM call 2) fails after the intent
delta was parsed and applied. -/
def oracleFailNarr : Oracle :=
  { parse := Except.ok delta2ex
    narrative := Except.error "boom"
    extract := Except.ok emptyChanges
    roll := 5
    now := "t0"
    persistOk := true }

/-- An oracle for a fully successful turn with empty deltas. -/
def oracleOk : Oracle :=
  { parse := Except.ok emptyChanges
    narrative := Except.ok "story"
    extract := Except.ok emptyChanges
    roll := 5
    now := "t0"
    persistOk := true }

/-- A concrete character-creation allocation: the 10 bonus points all on
Strength (5 + 10 and 5 + 0), so `remainingPoints` is 0. -/
def alloc8ex : AttrMap :=
  fun a => if a = "Strength" then some 15 else if a = "Agility" then some 5 else none

/-- A concrete starting-skill pick (the UI requires at least one). -/
def skills8ex : List PlayerSkill := [⟨"stealth", some 1, none⟩]

/-- A concrete customization selection (the default first options). -/
def customs8ex : List (String × String) := [("background", "warrior")]

/-- The game state `handleStartGame` builds for the concrete creation
inputs above. -/
def st8ex : GameState :=
  { scenarioId := "s1"
    scenarioName := "Scenario One"
    baseAttributes := alloc8ex
    selectedCustomizations := customs8ex
    currentLocation := "camp"
    playerCharacterName := some "Hero"
    inventory := []
    playerSkills := skills8ex
    gameProgression := fun _ => none
    dialogueHistory := [⟨Role.dm, initialDmText scen1ex "Hero", "t0"⟩] }

/-! ## Theorems -/

/-- A bonus list that never mentions an attribute contributes 0 to it. -/
theorem bonusAmount_eq_zero (a : String) (l : List (String × Int))
    (h : bonusHits a l = false) : bonusAmount a l = 0 := by
  induction l with
  | nil => rfl
  | cons p rest ih =>
    simp only [bonusHits, Bool.or_eq_false_iff, decide_eq_false_iff_not] at h
    simp [bonusAmount, h.1, ih h.2]

/-- Pointwise characterization of the inner bonus loop: the result at `a`
is the input value (default 0) plus the total bonus for `a`, and the
entry exists afterwards exactly when it existed before or the bonus list
mentions `a`. -/
theorem applyBonus_apply (bonus : List (String × Int)) (attrs : AttrMap) (a : String) :
    applyBonus attrs bonus a =
      if bonusHits a bonus then some ((attrs a).getD 0 + bonusAmount a bonus)
      else attrs a := by
  induction bonus generalizing attrs with
  | nil => simp [applyBonus, bonusHits]
  | cons p rest ih =>
    have step : applyBonus attrs (p :: rest) =
        applyBonus
          (fun x =>
            if x = p.1 then
              match attrs p.1 with
              | some v => some (v + p.2)
              | none => some p.2
            else attrs x) rest := rfl
    rw [step, ih]
    by_cases hpa : p.1 = a
    · subst hpa
      cases hA : attrs p.1 with
      | none =>
        by_cases hr : bonusHits p.1 rest
        · simp [bonusHits, bonusAmount, hr, hA]
        · simp [bonusHits, bonusAmount, hr, hA, bonusAmount_eq_zero _ _ (by simpa using hr)]
      | some v =>
        by_cases hr : bonusHits p.1 rest
        · simp [bonusHits, bonusAmount, hr, hA]
          omega
        · simp [bonusHits, bonusAmount, hr, hA, bonusAmount_eq_zero _ _ (by simpa using hr)]
    · have hap : ¬ a = p.1 := fun h => hpa h.symm
      by_cases hr : bonusHits a rest
      · simp [bonusHits, bonusAmount, hr, hpa, hap]
      · simp [bonusHits, bonusAmount, hr, hpa, hap]

/-- Selected pairs that never mention an attribute contribute 0 to it. -/
theorem totalBonus_eq_zero (scen : DndScenario) (a : String)
    (customs : List (String × String))
    (h : bonusMentioned scen a customs = false) : totalBonus scen a customs = 0 := by
  induction customs with
  | nil => rfl
  | cons sel rest ih =>
    simp only [bonusMentioned, Bool.or_eq_false_iff] at h
    simp [totalBonus, bonusAmount_eq_zero _ _ h.1, ih h.2]

/-- One step of the resolver's outer loop equals applying the (possibly
empty) bonus list of the selected pair. -/
theorem calculateFinalAttributes_cons (base : AttrMap) (sel : String × String)
    (rest : List (String × String)) (scen : DndScenario) :
    calculateFinalAttributes base (sel :: rest) scen =
      calculateFinalAttributes (applyBonus base (selectedBonus scen sel)) rest scen := by
  simp only [calculateFinalAttributes, List.foldl_cons]
  congr 1
  rcases h1 : lookupKey sel.1 scen.playerCustomizations with _ | category
  · simp [selectedBonus, h1, applyBonus]
  · rcases h2 : lookupKey sel.2 category.content with _ | opt
    · simp [selectedBonus, h1, h2, applyBonus]
    · simp [selectedBonus, h1, h2]

/-- Pointwise characterization of `calculateFinalAttributes`: the resolved
value of attribute `a` is its base value (default 0) plus the sum of the
bonuses for `a` over all selected pairs valid in the scenario; when no
valid pair mentions `a`, the base entry (present or absent) is returned
unchanged. -/
theorem calculateFinalAttributes_apply (base : AttrMap)
    (customs : List (String × String)) (scen : DndScenario) (a : String) :
    calculateFinalAttributes base customs scen a =
      if bonusMentioned scen a customs then
        some ((base a).getD 0 + totalBonus scen a customs)
      else base a := by
  induction customs generalizing base with
  | nil => simp [calculateFinalAttributes, bonusMentioned]
  | cons sel rest ih =>
    rw [calculateFinalAttributes_cons, ih, applyBonus_apply]
    by_cases hsel : bonusHits a (selectedBonus scen sel)
    · by_cases hr : bonusMentioned scen a rest
      · simp [bonusMentioned, totalBonus, hsel, hr]
        omega
      · simp [bonusMentioned, totalBonus, hsel, hr, totalBonus_eq_zero _ _ _ (by simpa using hr)]
    · by_cases hr : bonusMentioned scen a rest
      · simp [bonusMentioned, totalBonus, hsel, hr,
          bonusAmount_eq_zero _ _ (by simpa using hsel)]
      · simp [bonusMentioned, totalBonus, hsel, hr]

/-- Claim C4: for every base-attribute map, selection list and scenario,
the attribute resolver returns the base attributes with, for each
selected (category, option) pair whose category and option both exist in
the scenario, every bonus of that option added (creating the attribute
entry when absent); invalid pairs are silently skipped; and on base
`Strength 5, Agility 5` with a selected `Strength +2` bonus it yields
`Strength 7, Agility 5`.  The embedding is pure, so the input map is
never mutated. -/
theorem C4_attribute_resolver :
    (∀ (base : AttrMap) (customs : List (String × String)) (scen : DndScenario) (a : String),
      calculateFinalAttributes base customs scen a =
        if bonusMentioned scen a customs then
          some ((base a).getD 0 + totalBonus scen a customs)
        else base a)
    ∧ calculateFinalAttributes base1ex [("background", "warrior")] scen1ex "Strength" = some 7
    ∧ calculateFinalAttributes base1ex [("background", "warrior")] scen1ex "Agility" = some 5 :=
  ⟨calculateFinalAttributes_apply, by decide, by decide⟩

/-- One item change keeps every inventory quantity positive: the matched
entry is removed when its new quantity is not positive, and a new entry
is only pushed with a positive quantity. -/
theorem applyItemChange_pos (c : ItemChange) (inv : List InventoryItem)
    (h : ∀ e ∈ inv, 0 < e.quantity) :
    ∀ e ∈ applyItemChange c inv, 0 < e.quantity := by
  induction inv with
  | nil =>
    intro e he
    by_cases hq : 0 < c.quantityChange
    · simp [applyItemChange, hq] at he
      simp [he, hq]
    · simp [applyItemChange, hq] at he
  | cons entry rest ih =>
    intro e he
    by_cases hname : entry.item = c.item
    · by_cases hle : entry.quantity + c.quantityChange ≤ 0
      · simp [applyItemChange, hname, hle] at he
        exact h e (List.mem_cons_of_mem _ he)
      · simp [applyItemChange, hname, hle] at he
        rcases he with he | he
        · simp [he]
          omega
        · exact h e (List.mem_cons_of_mem _ he)
    · simp [applyItemChange, hname] at he
      rcases he with he | he
      · exact he ▸ h entry (List.mem_cons_self _ _)
      · exact ih (fun x hx => h x (List.mem_cons_of_mem _ hx)) e he

/-- Folding item changes keeps every inventory quantity positive. -/
theorem foldl_applyItemChange_pos (l : List ItemChange) (inv : List InventoryItem)
    (h : ∀ e ∈ inv, 0 < e.quantity) :
    ∀ e ∈ l.foldl (fun i c => applyItemChange c i) inv, 0 < e.quantity := by
  induction l generalizing inv with
  | nil => exact h
  | cons c rest ih => exact ih _ (applyItemChange_pos c inv h)

/-- The item section keeps every inventory quantity positive. -/
theorem applyItems_pos (inv : List InventoryItem) (opt : Option (List ItemChange))
    (h : ∀ e ∈ inv, 0 < e.quantity) :
    ∀ e ∈ (applyItems inv opt).1, 0 < e.quantity := by
  cases opt with
  | none => exact h
  | some l =>
    by_cases hl : 0 < l.length
    · simpa [applyItems, hl] using foldl_applyItemChange_pos l inv h
    · simpa [applyItems, hl] using h

/-- The delta applier never writes a non-positive inventory quantity. -/
theorem applyGameStateChanges_inventory_pos (st : GameState) (ch : Changes)
    (fa : AttrMap) (roll : Int) (h : ∀ e ∈ st.inventory, 0 < e.quantity) :
    ∀ e ∈ ((applyGameStateChanges st ch fa roll).1).inventory, 0 < e.quantity :=
  applyItems_pos st.inventory ch.itemChanges h

/-- Applying any sequence of deltas keeps every quantity positive. -/
theorem applyDeltas_inventory_pos (fa : AttrMap) (roll : Int)
    (deltas : List Changes) (st : GameState)
    (h : ∀ e ∈ st.inventory, 0 < e.quantity) :
    ∀ e ∈ (applyDeltas fa roll st deltas).inventory, 0 < e.quantity := by
  induction deltas generalizing st with
  | nil => exact h
  | cons c rest ih =>
    exact ih _ (applyGameStateChanges_inventory_pos st c fa roll h)

/-- Claim C2: starting from any inventory with all quantities positive,
no entry of the inventory ever has quantity `≤ 0` after any sequence of
deltas is applied; an existing entry gets the delta added and is removed
when the result is not positive; a missing item is appended exactly when
its delta is positive and is a no-op otherwise; and inventory
`[(sword, 1)]` becomes `[]` under the delta `itemChanges: [(sword, -1)]`. -/
theorem C2_inventory_invariant (fa : AttrMap) (roll : Int)
    (deltas : List Changes) (st : GameState)
    (h : ∀ e ∈ st.inventory, 0 < e.quantity) :
    (∀ e ∈ (applyDeltas fa roll st deltas).inventory, 0 < e.quantity)
    ∧ ((applyGameStateChanges st2ex delta2ex emptyAttrs 5).1).inventory = []
    ∧ (∀ (inv : List InventoryItem) (c : ItemChange), (∀ e ∈ inv, ¬ e.item = c.item) →
        (c.quantityChange ≤ 0 → applyItemChange c inv = inv)
        ∧ (0 < c.quantityChange → applyItemChange c inv = inv ++ [⟨c.item, c.quantityChange⟩])) := by
  refine ⟨applyDeltas_inventory_pos fa roll deltas st h, by decide, ?_⟩
  intro inv c hmiss
  constructor
  · intro hq
    induction inv with
    | nil => simp [applyItemChange]; omega
    | cons entry rest ih =>
      have hne : ¬ entry.item = c.item := hmiss entry (List.mem_cons_self _ _)
      simp [applyItemChange, hne]
      exact ih (fun x hx => hmiss x (List.mem_cons_of_mem _ hx))
  · intro hq
    induction inv with
    | nil => simp [applyItemChange, hq]
    | cons entry rest ih =>
      have hne : ¬ entry.item = c.item := hmiss entry (List.mem_cons_self _ _)
      simp [applyItemChange, hne]
      exact ih (fun x hx => hmiss x (List.mem_cons_of_mem _ hx))

/-- Witness for C2 at a concrete input: inventory `[(sword, 1), (rope, 2)]`
and the two deltas `[(sword, -1)]` then `[(torch, 3)]`. -/
theorem C2_inventory_invariant_witness :
    (∀ e ∈ st2ex.inventory, 0 < e.quantity)
    ∧ ((∀ e ∈ (applyDeltas emptyAttrs 5 st2ex
          [delta2ex, { emptyChanges with itemChanges := some [⟨"torch", 3⟩] }]).inventory,
        0 < e.quantity)
      ∧ ((applyGameStateChanges st2ex delta2ex emptyAttrs 5).1).inventory = []
      ∧ (∀ (inv : List InventoryItem) (c : ItemChange), (∀ e ∈ inv, ¬ e.item = c.item) →
          (c.quantityChange ≤ 0 → applyItemChange c inv = inv)
          ∧ (0 < c.quantityChange → applyItemChange c inv = inv ++ [⟨c.item, c.quantityChange⟩]))) :=
  ⟨by decide,
   C2_inventory_invariant emptyAttrs 5
     [delta2ex, { emptyChanges with itemChanges := some [⟨"torch", 3⟩] }] st2ex (by decide)⟩

/-- Any name present after one skill change was the change's name or was
already present. -/
theorem applySkillChange_names_subset (c : SkillChange) (skills : List PlayerSkill) :
    ∀ x ∈ (applySkillChange c skills).map PlayerSkill.skillName,
      x = c.skillName ∨ x ∈ skills.map PlayerSkill.skillName := by
  induction skills with
  | nil =>
    intro x hx
    by_cases hl : c.type = SkillChangeType.learn
    · simp [applySkillChange, hl] at hx
      exact Or.inl hx
    · simp [applySkillChange, hl] at hx
  | cons s rest ih =>
    intro x hx
    rw [applySkillChange] at hx
    by_cases hname : s.skillName = c.skillName
    · rw [if_pos hname] at hx
      split at hx
      · simp only [List.map_cons, List.mem_cons] at hx
        rcases hx with hx | hx
        · refine Or.inr ?_
          simp only [List.map_cons, List.mem_cons]
          exact Or.inl (by simpa using hx)
        · exact Or.inr (by simp only [List.map_cons, List.mem_cons]; exact Or.inr hx)
      · simp only [List.map_cons, List.mem_cons] at hx
        rcases hx with hx | hx
        · refine Or.inr ?_
          simp only [List.map_cons, List.mem_cons]
          exact Or.inl (by simpa using hx)
        · exact Or.inr (by simp only [List.map_cons, List.mem_cons]; exact Or.inr hx)
      · exact Or.inr (by simp only [List.map_cons, List.mem_cons]; exact Or.inr hx)
      · exact Or.inr hx
    · rw [if_neg hname] at hx
      simp only [List.map_cons, List.mem_cons] at hx
      rcases hx with hx | hx
      · exact Or.inr (by simp only [List.map_cons, List.mem_cons]; exact Or.inl hx)
      · rcases ih x hx with h1 | h1
        · exact Or.inl h1
        · exact Or.inr (by simp only [List.map_cons, List.mem_cons]; exact Or.inr h1)

/-- One skill change preserves uniqueness of skill names: a `learn` only
pushes when the name is absent, level updates keep the name, and
`forget` removes an entry. -/
theorem applySkillChange_nodup (c : SkillChange) (skills : List PlayerSkill)
    (h : (skills.map PlayerSkill.skillName).Nodup) :
    ((applySkillChange c skills).map PlayerSkill.skillName).Nodup := by
  induction skills with
  | nil =>
    rw [applySkillChange]
    split
    · simp
    · simp
  | cons s rest ih =>
    simp only [List.map_cons, List.nodup_cons] at h
    rw [applySkillChange]
    by_cases hname : s.skillName = c.skillName
    · rw [if_pos hname]
      split
      · simpa using h
      · simpa using h
      · exact h.2
      · simpa using h
    · rw [if_neg hname]
      simp only [List.map_cons, List.nodup_cons]
      refine ⟨?_, ih h.2⟩
      intro hmem
      rcases applySkillChange_names_subset c rest _ hmem with h1 | h1
      · exact hname h1
      · exact h.1 h1

/-- A `learn` for a name already present leaves the skill list unchanged
(no duplicate, no level change). -/
theorem applySkillChange_learn_noop (c : SkillChange) (skills : List PlayerSkill)
    (hc : c.type = SkillChangeType.learn)
    (hmem : ∃ s ∈ skills, s.skillName = c.skillName) :
    applySkillChange c skills = skills := by
  induction skills with
  | nil => simp at hmem
  | cons s rest ih =>
    rw [applySkillChange]
    by_cases hname : s.skillName = c.skillName
    · rw [if_pos hname, hc]
    · rw [if_neg hname]
      rcases hmem with ⟨w, hw, hwname⟩
      rcases List.mem_cons.mp hw with hws | hwr
      · exact absurd (hws ▸ hwname) hname
      · rw [ih ⟨w, hwr, hwname⟩]

/-- The skill section preserves uniqueness of skill names. -/
theorem applySkills_nodup (skills : List PlayerSkill) (opt : Option (List SkillChange))
    (h : (skills.map PlayerSkill.skillName).Nodup) :
    (((applySkills skills opt).1).map PlayerSkill.skillName).Nodup := by
  cases opt with
  | none => exact h
  | some l =>
    by_cases hl : 0 < l.length
    · simp only [applySkills, hl, if_pos]
      clear hl
      induction l generalizing skills with
      | nil => exact h
      | cons c rest ih => exact ih _ (applySkillChange_nodup c skills h)
    · simpa [applySkills, hl] using h

/-- Applying any sequence of deltas preserves skill-name uniqueness. -/
theorem applyDeltas_skills_nodup (fa : AttrMap) (roll : Int)
    (deltas : List Changes) (st : GameState)
    (h : (st.playerSkills.map PlayerSkill.skillName).Nodup) :
    (((applyDeltas fa roll st deltas).playerSkills).map PlayerSkill.skillName).Nodup := by
  induction deltas generalizing st with
  | nil => exact h
  | cons c rest ih => exact ih _ (applySkills_nodup st.playerSkills c.skillChanges h)

/-- Claim C3: starting from any skill list with pairwise-distinct names,
the skill list never holds two entries with the same name after any
sequence of deltas; a `learn` for a name already present is a no-op; and
two successive `learn(stealth, 1)` deltas on an empty skill list leave
exactly `[(stealth, level 1)]`. -/
theorem C3_skill_uniqueness (fa : AttrMap) (roll : Int)
    (deltas : List Changes) (st : GameState)
    (h : (st.playerSkills.map PlayerSkill.skillName).Nodup) :
    (((applyDeltas fa roll st deltas).playerSkills).map PlayerSkill.skillName).Nodup
    ∧ (∀ (c : SkillChange) (skills : List PlayerSkill),
        c.type = SkillChangeType.learn → (∃ s ∈ skills, s.skillName = c.skillName) →
        applySkillChange c skills = skills)
    ∧ (applyDeltas emptyAttrs 5 st3ex [delta3ex, delta3ex]).playerSkills
        = [⟨"stealth", some 1, none⟩] :=
  ⟨applyDeltas_skills_nodup fa roll deltas st h,
   applySkillChange_learn_noop, by decide⟩

/-- Witness for C3 at a concrete input: skills `[(stealth, 1)]` and the
deltas of Scenario 3. -/
theorem C3_skill_uniqueness_witness :
    ((st3ex.playerSkills.map PlayerSkill.skillName).Nodup)
    ∧ ((((applyDeltas emptyAttrs 5 st3ex [delta3ex, delta3ex]).playerSkills).map
          PlayerSkill.skillName).Nodup
      ∧ (∀ (c : SkillChange) (skills : List PlayerSkill),
          c.type = SkillChangeType.learn → (∃ s ∈ skills, s.skillName = c.skillName) →
          applySkillChange c skills = skills)
      ∧ (applyDeltas emptyAttrs 5 st3ex [delta3ex, delta3ex]).playerSkills
          = [⟨"stealth", some 1, none⟩]) :=
  ⟨by decide, C3_skill_uniqueness emptyAttrs 5 [delta3ex, delta3ex] st3ex (by decide)⟩

/-- Claim C1: applying a delta that requests a skill check (with a
governing attribute and a defined threshold) uses one d20 roll; success
is `roll + effective attribute (default 0) ≥ threshold`, except that a
roll of exactly 1 always fails and a roll of exactly 20 always succeeds;
the outcome is recorded only in the returned summary string, the state
is returned unchanged. -/
theorem C1_dice_roll (st : GameState) (fa : AttrMap) (roll : Int) (a : String) (dc : Int)
    (ha : ¬ a = "") :
    applyGameStateChanges st (diceDelta a dc) fa roll
      = (st, diceText a dc roll (jsOrInt (fa a) 0))
    ∧ (∀ (r v t : Int), ¬ r = 1 → ¬ r = 20 → (skillCheckSuccess r v t = true ↔ t ≤ r + v))
    ∧ (∀ (v t : Int), skillCheckSuccess 1 v t = false)
    ∧ (∀ (v t : Int), skillCheckSuccess 20 v t = true) := by
  refine ⟨?_, ?_, ?_, ?_⟩
  · simp [applyGameStateChanges, applyItems, applyAttrs, applySkills, applyLoc,
      applyFlags, diceSection, diceDelta, emptyChanges, ha]
  · intro r v t h1 h2
    simp [skillCheckSuccess, h1, h2]
  · intro v t
    simp [skillCheckSuccess]
  · intro v t
    simp [skillCheckSuccess]

/-- Witness for C1 at a concrete input: attribute `Strength`, threshold
17, roll 15, and Scenario 4's forced rolls. -/
theorem C1_dice_roll_witness :
    (¬ "Strength" = "")
    ∧ (applyGameStateChanges st2ex (diceDelta "Strength" 17) base1ex 15
        = (st2ex, diceText "Strength" 17 15 (jsOrInt (base1ex "Strength") 0))
      ∧ (∀ (r v t : Int), ¬ r = 1 → ¬ r = 20 → (skillCheckSuccess r v t = true ↔ t ≤ r + v))
      ∧ (∀ (v t : Int), skillCheckSuccess 1 v t = false)
      ∧ (∀ (v t : Int), skillCheckSuccess 20 v t = true)) :=
  ⟨by decide, C1_dice_roll st2ex base1ex 15 "Strength" 17 (by decide)⟩

/-- Spec Scenario 4 for the skill check, stated directly on the embedded
outcome function: roll 15 with attribute 3 against threshold 17 succeeds
(15 + 3 = 18 ≥ 17), while a forced roll of 1 with attribute 10 against
threshold 5 fails despite 1 + 10 = 11 ≥ 5. -/
theorem skillCheck_scenario4 :
    skillCheckSuccess 15 3 17 = true ∧ skillCheckSuccess 1 10 5 = false := by
  decide

/-- Counterexample to claim C9 as stated: a delta whose location-update
field is present with value `""` does not overwrite the location — the
source's `if (changes.locationUpdate)` is a JavaScript truthiness test
and the empty string is falsy.  Starting from location `camp`, the
location stays `camp` instead of becoming `""`. -/
theorem C9_counterexample :
    ((applyGameStateChanges st2ex emptyLocDelta emptyAttrs 5).1).currentLocation = "camp"
    ∧ ¬ ((applyGameStateChanges st2ex emptyLocDelta emptyAttrs 5).1).currentLocation = "" := by
  decide

/-- Claim C9 as amended: a delta whose location-update field is present
with a non-empty string sets the current location to exactly that value;
a delta whose location-update field is absent — or present but empty —
leaves the current location unchanged. -/
theorem C9_location_update (st : GameState) (ch : Changes) (fa : AttrMap)
    (roll : Int) (loc : String) :
    (ch.locationUpdate = some loc → ¬ loc = "" →
      ((applyGameStateChanges st ch fa roll).1).currentLocation = loc)
    ∧ (ch.locationUpdate = none →
      ((applyGameStateChanges st ch fa roll).1).currentLocation = st.currentLocation)
    ∧ (ch.locationUpdate = some "" →
      ((applyGameStateChanges st ch fa roll).1).currentLocation = st.currentLocation) := by
  have hloc : ((applyGameStateChanges st ch fa roll).1).currentLocation
      = (applyLoc st.currentLocation ch.locationUpdate).1 := rfl
  refine ⟨?_, ?_, ?_⟩
  · intro h hne
    rw [hloc, h]
    simp [applyLoc, hne]
  · intro h
    rw [hloc, h]
    rfl
  · intro h
    rw [hloc, h]
    simp [applyLoc]

/-- Witness for C9 (amended) at a concrete input: setting location
`forest` from `camp`, and the absent/empty cases on the same state. -/
theorem C9_location_update_witness :
    forestLocDelta.locationUpdate = some "forest"
    ∧ (¬ "forest" = "")
    ∧ ((applyGameStateChanges st2ex forestLocDelta emptyAttrs 5).1).currentLocation = "forest"
    ∧ emptyChanges.locationUpdate = none
    ∧ ((applyGameStateChanges st2ex emptyChanges emptyAttrs 5).1).currentLocation
        = st2ex.currentLocation :=
  ⟨rfl, by decide,
   (C9_location_update st2ex forestLocDelta emptyAttrs 5 "forest").1 rfl (by decide),
   rfl,
   (C9_location_update st2ex emptyChanges emptyAttrs 5 "forest").2.1 rfl⟩

/-- Claim C10: an `improve` or `deteriorate` skill change whose value
field is absent is a no-op, even when the named skill exists — the level
is not modified and no default increment or decrement is applied; the
whole skill list survives the delta unchanged. -/
theorem C10_value_absent_noop (c : SkillChange)
    (hv : c.value = none)
    (ht : c.type = SkillChangeType.improve ∨ c.type = SkillChangeType.deteriorate) :
    (∀ skills : List PlayerSkill, applySkillChange c skills = skills)
    ∧ (∀ (st : GameState) (fa : AttrMap) (roll : Int),
        ((applyGameStateChanges st { emptyChanges with skillChanges := some [c] } fa roll).1).playerSkills
          = st.playerSkills) := by
  have hone : ∀ skills : List PlayerSkill, applySkillChange c skills = skills := by
    intro skills
    induction skills with
    | nil =>
      rcases ht with h | h <;> simp [applySkillChange, h]
    | cons s rest ih =>
      rw [applySkillChange]
      by_cases hname : s.skillName = c.skillName
      · rcases ht with h | h <;> rw [if_pos hname, h, hv]
      · rw [if_neg hname, ih]
  refine ⟨hone, ?_⟩
  intro st fa roll
  have hsk : ((applyGameStateChanges st { emptyChanges with skillChanges := some [c] } fa roll).1).playerSkills
      = (applySkills st.playerSkills (some [c])).1 := rfl
  rw [hsk]
  simp [applySkills, hone]

/-- Witness for C10 at a concrete input: `improve stealth` with no value
on a list where `stealth` exists at level 1. -/
theorem C10_value_absent_noop_witness :
    improveNoValue.value = none
    ∧ (improveNoValue.type = SkillChangeType.improve
        ∨ improveNoValue.type = SkillChangeType.deteriorate)
    ∧ applySkillChange improveNoValue [⟨"stealth", some 1, none⟩] = [⟨"stealth", some 1, none⟩]
    ∧ ((applyGameStateChanges st3ex { emptyChanges with skillChanges := some [improveNoValue] }
          emptyAttrs 5).1).playerSkills = st3ex.playerSkills :=
  ⟨rfl, Or.inl rfl,
   (C10_value_absent_noop improveNoValue rfl (Or.inl rfl)).1 [⟨"stealth", some 1, none⟩],
   (C10_value_absent_noop improveNoValue rfl (Or.inl rfl)).2 st3ex emptyAttrs 5⟩

/-- The turn body never touches the dialogue history: both delta
applications leave it unchanged. -/
theorem turnBody_history (scen : DndScenario) (st : GameState) (fa : AttrMap)
    (o : Oracle) : (turnBody scen st fa o).2.dialogueHistory = st.dialogueHistory := by
  rcases o with ⟨p, n, ex, roll, now, pk⟩
  cases p <;> cases n <;> cases ex <;> rfl

/-- A completed turn (the final write succeeds) returns and persists
exactly `turnFinalState`. -/
theorem handleUserAction_ok (catalog : List DndScenario) (store : List GameRow)
    (uid sessionId userAction : String) (o : Oracle) (row : GameRow) (scen : DndScenario)
    (hfind : findRow sessionId store = some row)
    (hown : row.user_id = uid)
    (hscen : findScen row.scenario_id catalog = some scen)
    (hp : o.persistOk = true) :
    handleUserAction catalog store (some uid) sessionId userAction o
      = (Except.ok (turnFinalState row scen userAction o),
         updateStore store sessionId (turnFinalState row scen userAction o)) := by
  simp [handleUserAction, hfind, hown, hscen, hp, turnFinalState]

/-- A turn whose final write fails throws and leaves the store unchanged. -/
theorem handleUserAction_persistFail (catalog : List DndScenario) (store : List GameRow)
    (uid sessionId userAction : String) (o : Oracle) (row : GameRow) (scen : DndScenario)
    (hfind : findRow sessionId store = some row)
    (hown : row.user_id = uid)
    (hscen : findScen row.scenario_id catalog = some scen)
    (hp : o.persistOk = false) :
    handleUserAction catalog store (some uid) sessionId userAction o
      = (Except.error "保存游戏状态失败。", store) := by
  simp [handleUserAction, hfind, hown, hscen, hp]

/-- The history of the turn's final state is the prior history followed by
the player entry and the narrator entry. -/
theorem turnFinalState_history (row : GameRow) (scen : DndScenario)
    (userAction : String) (o : Oracle) :
    (turnFinalState row scen userAction o).dialogueHistory
      = row.state.dialogueHistory
        ++ [⟨Role.user, userAction, o.now⟩,
            ⟨Role.dm,
              (turnBody scen (afterUserAppend row.state userAction o.now)
                (calculateFinalAttributes row.state.baseAttributes
                  row.state.selectedCustomizations scen) o).1, o.now⟩] := by
  have h1 : (turnFinalState row scen userAction o).dialogueHistory
      = (turnBody scen (afterUserAppend row.state userAction o.now)
          (calculateFinalAttributes row.state.baseAttributes
            row.state.selectedCustomizations scen) o).2.dialogueHistory
        ++ [⟨Role.dm,
              (turnBody scen (afterUserAppend row.state userAction o.now)
                (calculateFinalAttributes row.state.baseAttributes
                  row.state.selectedCustomizations scen) o).1, o.now⟩] := rfl
  rw [h1, turnBody_history]
  show (row.state.dialogueHistory ++ [⟨Role.user, userAction, o.now⟩]) ++ _ = _
  rw [List.append_assoc]
  rfl

/-- Claim C7: after any completed turn (full success or degraded
narration), the dialogue history is exactly the prior history, in its
original order, followed by one player entry with the submitted action
text and then one narrator entry; when the turn fails after its
preconditions held (the only such failure is the final write), nothing
is persisted, so the stored history never grows by a single entry. -/
theorem C7_history_append (catalog : List DndScenario) (store : List GameRow)
    (uid sessionId userAction : String) (o : Oracle) (row : GameRow) (scen : DndScenario)
    (hfind : findRow sessionId store = some row)
    (hown : row.user_id = uid)
    (hscen : findScen row.scenario_id catalog = some scen) :
    (o.persistOk = true →
      handleUserAction catalog store (some uid) sessionId userAction o
          = (Except.ok (turnFinalState row scen userAction o),
             updateStore store sessionId (turnFinalState row scen userAction o))
        ∧ ∃ d, (turnFinalState row scen userAction o).dialogueHistory
            = row.state.dialogueHistory
              ++ [⟨Role.user, userAction, o.now⟩, ⟨Role.dm, d, o.now⟩])
    ∧ (o.persistOk = false →
      handleUserAction catalog store (some uid) sessionId userAction o
        = (Except.error "保存游戏状态失败。", store)) := by
  constructor
  · intro hp
    exact ⟨handleUserAction_ok catalog store uid sessionId userAction o row scen
        hfind hown hscen hp,
      ⟨_, turnFinalState_history row scen userAction o⟩⟩
  · intro hp
    exact handleUserAction_persistFail catalog store uid sessionId userAction o row scen
      hfind hown hscen hp

/-- Witness for C7 at a concrete input: a one-row store, its owner, the
catalog with its scenario, and a fully successful turn. -/
theorem C7_history_append_witness :
    findRow "g1" storeTex = some rowTex
    ∧ rowTex.user_id = "u1"
    ∧ findScen rowTex.scenario_id catalogTex = some scen1ex
    ∧ ((oracleOk.persistOk = true →
        handleUserAction catalogTex storeTex (some "u1") "g1" "look" oracleOk
            = (Except.ok (turnFinalState rowTex scen1ex "look" oracleOk),
               updateStore storeTex "g1" (turnFinalState rowTex scen1ex "look" oracleOk))
          ∧ ∃ d, (turnFinalState rowTex scen1ex "look" oracleOk).dialogueHistory
              = rowTex.state.dialogueHistory
                ++ [⟨Role.user, "look", oracleOk.now⟩, ⟨Role.dm, d, oracleOk.now⟩])
      ∧ (oracleOk.persistOk = false →
        handleUserAction catalogTex storeTex (some "u1") "g1" "look" oracleOk
          = (Except.error "保存游戏状态失败。", storeTex))) :=
  ⟨rfl, rfl, rfl,
   C7_history_append catalogTex storeTex "u1" "g1" "look" oracleOk rowTex scen1ex
     rfl rfl rfl⟩

/-- Claim C6: when a precondition of the turn orchestrator is violated —
no authenticated caller, no session row, a caller that does not own the
session, or a scenario missing from the catalog — the call fails with an
error and the store is returned untouched: no history append, no delta,
no write. -/
theorem C6_preconditions (catalog : List DndScenario) (store : List GameRow)
    (authUser : Option String) (sessionId userAction : String) (o : Oracle)
    (h : authUser = none
      ∨ findRow sessionId store = none
      ∨ (∃ uid row, authUser = some uid ∧ findRow sessionId store = some row
          ∧ ¬ row.user_id = uid)
      ∨ (∃ uid row, authUser = some uid ∧ findRow sessionId store = some row
          ∧ row.user_id = uid ∧ findScen row.scenario_id catalog = none)) :
    ∃ e, handleUserAction catalog store authUser sessionId userAction o
      = (Except.error e, store) := by
  rcases h with h | h | ⟨uid, row, h1, h2, h3⟩ | ⟨uid, row, h1, h2, h3, h4⟩
  · exact ⟨"Unauthorized: User not logged in or session expired.", by rw [h]; rfl⟩
  · cases authUser with
    | none => exact ⟨"Unauthorized: User not logged in or session expired.", rfl⟩
    | some uid => exact ⟨"游戏会话不存在或无法加载。", by simp [handleUserAction, h]⟩
  · exact ⟨"Unauthorized: You do not have access to this game session.",
      by simp [handleUserAction, h1, h2, h3]⟩
  · exact ⟨"关联的场景模板未找到。", by simp [handleUserAction, h1, h2, h3, h4]⟩

/-- Witness for C6 at a concrete input: an unauthenticated call. -/
theorem C6_preconditions_witness :
    ((none : Option String) = none)
    ∧ ∃ e, handleUserAction catalogTex storeTex none "g1" "look" oracleOk
        = (Except.error e, storeTex) :=
  ⟨rfl,
   C6_preconditions catalogTex storeTex none "g1" "look" oracleOk (Or.inl rfl)⟩

/-- Claim C5: when any of the three narration-service calls of a turn
fails (including output that fails to parse), the turn does not abort:
the orchestrator substitutes a placeholder narrator message, the
player's action entry and the placeholder entry are both appended to the
history, the final state is persisted, and any deltas applied before the
failure (the intent-parsing delta, when that call succeeded) are kept. -/
theorem C5_narration_failure (catalog : List DndScenario) (store : List GameRow)
    (uid sessionId userAction : String) (o : Oracle) (row : GameRow) (scen : DndScenario)
    (hfind : findRow sessionId store = some row)
    (hown : row.user_id = uid)
    (hscen : findScen row.scenario_id catalog = some scen)
    (hp : o.persistOk = true)
    (hfail : exceptFailed o.parse = true ∨ exceptFailed o.narrative = true
      ∨ exceptFailed o.extract = true) :
    ∃ msg,
      handleUserAction catalog store (some uid) sessionId userAction o
        = (Except.ok (turnFinalState row scen userAction o),
           updateStore store sessionId (turnFinalState row scen userAction o))
      ∧ (turnFinalState row scen userAction o).dialogueHistory
          = row.state.dialogueHistory
            ++ [⟨Role.user, userAction, o.now⟩,
                ⟨Role.dm, placeholderNarrative msg, o.now⟩]
      ∧ (∀ parsed, o.parse = Except.ok parsed →
          sansHistory (turnFinalState row scen userAction o)
            = sansHistory (applyGameStateChanges (afterUserAppend row.state userAction o.now)
                parsed
                (calculateFinalAttributes row.state.baseAttributes
                  row.state.selectedCustomizations scen) o.roll).1) := by
  obtain ⟨p, n, ex, roll, now, pk⟩ := o
  cases p with
  | error e =>
    refine ⟨e, handleUserAction_ok catalog store uid sessionId userAction _ row scen
        hfind hown hscen hp, ?_, ?_⟩
    · exact turnFinalState_history row scen userAction _
    · intro parsed hparse
      exact Except.noConfusion hparse
  | ok parsed0 =>
    cases n with
    | error e =>
      refine ⟨e, handleUserAction_ok catalog store uid sessionId userAction _ row scen
          hfind hown hscen hp, ?_, ?_⟩
      · exact turnFinalState_history row scen userAction _
      · intro parsed hparse
        cases hparse
        rfl
    | ok content =>
      cases ex with
      | error e =>
        refine ⟨e, handleUserAction_ok catalog store uid sessionId userAction _ row scen
            hfind hown hscen hp, ?_, ?_⟩
        · exact turnFinalState_history row scen userAction _
        · intro parsed hparse
          cases hparse
          rfl
      | ok dmc =>
        simp [exceptFailed] at hfail

/-- Witness for C5 at a concrete input: the narrative call fails after a
successful intent-parsing call whose delta removed the sword. -/
theorem C5_narration_failure_witness :
    findRow "g1" storeTex = some rowTex
    ∧ rowTex.user_id = "u1"
    ∧ findScen rowTex.scenario_id catalogTex = some scen1ex
    ∧ oracleFailNarr.persistOk = true
    ∧ (exceptFailed oracleFailNarr.parse = true
        ∨ exceptFailed oracleFailNarr.narrative = true
        ∨ exceptFailed oracleFailNarr.extract = true)
    ∧ ∃ msg,
        handleUserAction catalogTex storeTex (some "u1") "g1" "drop the sword" oracleFailNarr
          = (Except.ok (turnFinalState rowTex scen1ex "drop the sword" oracleFailNarr),
             updateStore storeTex "g1" (turnFinalState rowTex scen1ex "drop the sword" oracleFailNarr))
        ∧ (turnFinalState rowTex scen1ex "drop the sword" oracleFailNarr).dialogueHistory
            = rowTex.state.dialogueHistory
              ++ [⟨Role.user, "drop the sword", oracleFailNarr.now⟩,
                  ⟨Role.dm, placeholderNarrative msg, oracleFailNarr.now⟩]
        ∧ (∀ parsed, oracleFailNarr.parse = Except.ok parsed →
            sansHistory (turnFinalState rowTex scen1ex "drop the sword" oracleFailNarr)
              = sansHistory (applyGameStateChanges
                  (afterUserAppend rowTex.state "drop the sword" oracleFailNarr.now) parsed
                  (calculateFinalAttributes rowTex.state.baseAttributes
                    rowTex.state.selectedCustomizations scen1ex) oracleFailNarr.roll).1) :=
  ⟨rfl, rfl, rfl, rfl, Or.inr (Or.inl rfl),
   C5_narration_failure catalogTex storeTex "u1" "g1" "drop the sword" oracleFailNarr
     rowTex scen1ex rfl rfl rfl rfl (Or.inr (Or.inl rfl))⟩

/-- Counterexample to claim C8 as stated: a successful character creation
where the created state's skill list is the player's non-empty pick (the
handler rejects an empty pick), and `Strength` is 15, not the fixed
starting value 5 — the handler requires all 10 bonus points allocated,
so the base attributes can never all equal the starting value. -/
theorem C8_counterexample :
    (handleStartGame scen1ex (some "u1") alloc8ex customs8ex skills8ex "Hero" "t0").map
        GameState.playerSkills = some skills8ex
    ∧ ¬ (handleStartGame scen1ex (some "u1") alloc8ex customs8ex skills8ex "Hero" "t0").map
        GameState.playerSkills = some []
    ∧ (handleStartGame scen1ex (some "u1") alloc8ex customs8ex skills8ex "Hero" "t0").map
        (fun st => st.baseAttributes "Strength") = some (some 15)
    ∧ ¬ (handleStartGame scen1ex (some "u1") alloc8ex customs8ex skills8ex "Hero" "t0").map
        (fun st => st.baseAttributes "Strength") = some (some BASE_ATTRIBUTE_VALUE) := by
  decide

/-- Claim C8 as amended: the game state produced at character creation
has base attributes equal to the player's allocation — which the handler
only accepts when all 10 bonus points above the fixed starting value are
allocated (`remainingPoints = 0`) — customizations as selected (the UI
initializes them to each category's first option), empty inventory, a
skill list equal to the player's chosen starting skills (required to be
non-empty), an empty story-flag map, and a dialogue history containing
exactly one introductory narrator entry. -/
theorem C8_creation_state (scen : DndScenario) (u : String) (alloc : AttrMap)
    (customs : List (String × String)) (skills : List PlayerSkill)
    (gameName now : String) (st : GameState)
    (h : handleStartGame scen (some u) alloc customs skills gameName now = some st) :
    st.inventory = []
    ∧ st.gameProgression = emptyFlags
    ∧ st.playerSkills = skills
    ∧ ¬ skills = []
    ∧ st.baseAttributes = alloc
    ∧ remainingPoints scen alloc = 0
    ∧ st.selectedCustomizations = customs
    ∧ st.dialogueHistory = [⟨Role.dm, initialDmText scen (trimString gameName), now⟩]
    ∧ st.currentLocation = scen.startingPoint
    ∧ st.playerCharacterName = some (trimString gameName)
    ∧ st.scenarioId = scen.id := by
  rw [handleStartGame] at h
  split_ifs at h with h1 h2 h3
  injection h with h
  subst h
  refine ⟨rfl, rfl, rfl, ?_, rfl, ?_, rfl, rfl, rfl, rfl, rfl⟩
  · intro hnil
    exact h3 (by simp [hnil])
  · omega

/-- Witness for C8 (amended) at the concrete creation input: user `u1`,
all 10 points on Strength, one starting skill, name `Hero`. -/
theorem C8_creation_state_witness :
    handleStartGame scen1ex (some "u1") alloc8ex customs8ex skills8ex "Hero" "t0"
        = some st8ex
    ∧ (st8ex.inventory = []
      ∧ st8ex.gameProgression = emptyFlags
      ∧ st8ex.playerSkills = skills8ex
      ∧ ¬ skills8ex = []
      ∧ st8ex.baseAttributes = alloc8ex
      ∧ remainingPoints scen1ex alloc8ex = 0
      ∧ st8ex.selectedCustomizations = customs8ex
      ∧ st8ex.dialogueHistory = [⟨Role.dm, initialDmText scen1ex (trimString "Hero"), "t0"⟩]
      ∧ st8ex.currentLocation = scen1ex.startingPoint
      ∧ st8ex.playerCharacterName = some (trimString "Hero")
      ∧ st8ex.scenarioId = scen1ex.id) :=
  ⟨rfl,
   C8_creation_state scen1ex "u1" alloc8ex customs8ex skills8ex "Hero" "t0" st8ex rfl⟩

end WebDnd
